import Mathlib

/-
Verification development for the survivorsunrestrained pantry-scraper
repository (src/pantry_scraper/foodpantries-scraper.py and
src/pantry_scraper/flask-scraper-backend.py).

The Python code is shallowly embedded: dataclasses become structures,
dict/set state becomes association lists with explicit invariants, and the
regular-expression searches of the extraction cascades become oracle
parameters carrying the raw captured groups (the surrounding control flow
- stripping, truthiness tests, length guards, "first match wins" ordering,
link scanning - is embedded faithfully).  Python truthiness on strings
(None and "" are falsy) is modelled explicitly.  The md5 digest used by
get_fingerprint is a deterministic function of its input string, and every
claim depends only on that determinism, so the digest is modelled as the
identity embedding of the pre-image string.
-/

namespace PantryScraper

/-- Python str.strip() whitespace class (space, tab, newline, carriage
return, vertical tab, form feed). -/
def pyIsSpace (c : Char) : Bool :=
  c == ' ' || c == '\t' || c == '\n' || c == '\r' ||
  c == Char.ofNat 11 || c == Char.ofNat 12

/-- Characters of a string with leading and trailing whitespace removed,
as in Python str.strip(). -/
def stripList (l : List Char) : List Char :=
  ((l.dropWhile pyIsSpace).reverse.dropWhile pyIsSpace).reverse

/-- Python str.strip(). -/
def pyStrip (s : String) : String :=
  String.mk (stripList s.data)

/-- Python str.lower() (ASCII case folding; all data handled by the
scrapers is ASCII). -/
def pyLower (s : String) : String :=
  String.mk (s.data.map Char.toLower)

/-- Python re.sub(r'\D', '', s): keep only the digits of s. -/
def digitsOnly (s : String) : String :=
  String.mk (s.data.filter Char.isDigit)

/-- Python truthiness of an optional string: None and "" are falsy. -/
def pyTruthyO (o : Option String) : Bool :=
  match o with
  | some s => s != ""
  | none => false

/-- Python `x or y` on optional strings. -/
def pyOrO (x y : Option String) : Option String :=
  if pyTruthyO x then x else y

/-- Data class Pantry (foodpantries-scraper.py lines 11-27), fields in
dataclass order.  name is a plain str; every other field is Optional. -/
structure Pantry where
  name : String
  address : Option String := none
  city : Option String := none
  state : Option String := none
  zip : Option String := none
  phone : Option String := none
  fax : Option String := none
  email : Option String := none
  website : Option String := none
  hours : Option String := none
  description : Option String := none
  requirements : Option String := none
  source_url : Option String := none
  source_site : Option String := none
deriving DecidableEq, Repr

/-- `self.name.lower().strip() if self.name else ""` (line 31). -/
def nameNorm (n : String) : String :=
  if n != "" then pyStrip (pyLower n) else ""

/-- `self.address.lower().strip() if self.address else ""` (line 32). -/
def optNorm (o : Option String) : String :=
  match o with
  | some s => if s != "" then pyStrip (pyLower s) else ""
  | none => ""

/-- `re.sub(r'\D', '', self.phone) if self.phone else ""` (line 33). -/
def phoneNorm (o : Option String) : String :=
  match o with
  | some s => if s != "" then digitsOnly s else ""
  | none => ""

/-- `self.zip or ''` (line 35). -/
def zipOrEmpty (o : Option String) : String :=
  match o with
  | some s => s
  | none => ""

/-- Pantry.get_fingerprint (lines 29-36): the '|'-joined normalized
fields.  The md5 hexdigest of this string is modelled as the string
itself (md5 is a deterministic function of it, and every claim uses only
that determinism, i.e. key equality). -/
def Pantry.get_fingerprint (p : Pantry) : String :=
  nameNorm p.name ++ "|" ++ optNorm p.address ++ "|" ++
  phoneNorm p.phone ++ "|" ++ zipOrEmpty p.zip

/-- One field of Pantry.merge_with (lines 45-48): if both values are
truthy keep the longer (ties keep self), else `self_val or other_val`. -/
def mergeField (x y : Option String) : Option String :=
  if pyTruthyO x && pyTruthyO y then
    if (y.getD "").length ≤ (x.getD "").length then x else y
  else pyOrO x y

/-- The name field of merge_with: name is a plain str, truthy iff
nonempty. -/
def mergeName (x y : String) : String :=
  if x != "" && y != "" then
    (if y.length ≤ x.length then x else y)
  else (if x != "" then x else y)

/-- Pantry.merge_with (lines 38-50), applied field-by-field in dataclass
order. -/
def Pantry.merge_with (a b : Pantry) : Pantry where
  name := mergeName a.name b.name
  address := mergeField a.address b.address
  city := mergeField a.city b.city
  state := mergeField a.state b.state
  zip := mergeField a.zip b.zip
  phone := mergeField a.phone b.phone
  fax := mergeField a.fax b.fax
  email := mergeField a.email b.email
  website := mergeField a.website b.website
  hours := mergeField a.hours b.hours
  description := mergeField a.description b.description
  requirements := mergeField a.requirements b.requirements
  source_url := mergeField a.source_url b.source_url
  source_site := mergeField a.source_site b.source_site

/-- DeduplicatedPantryDatabase (lines 53-58): `pantries` is a dict from
fingerprint to Pantry (modelled as an association list in insertion
order), `fingerprints` the companion set (modelled as a list). -/
structure DeduplicatedPantryDatabase where
  pantries : List (String × Pantry)
  fingerprints : List String
deriving DecidableEq, Repr

/-- Python dict lookup `d[k]` on the association list: first entry with
the given key. -/
def findVal (k : String) : List (String × Pantry) → Option Pantry
  | [] => none
  | kv :: rest => if kv.1 = k then some kv.2 else findVal k rest

/-- Python dict assignment `d[k] = v` for a key already present: replace
the value stored under k, keeping its position. -/
def setVal (k : String) (v : Pantry) (l : List (String × Pantry)) :
    List (String × Pantry) :=
  l.map (fun kv => if kv.1 = k then (k, v) else kv)

/-- DeduplicatedPantryDatabase.add_pantry (lines 60-71).  The then-branch
reads `self.pantries[fingerprint]`, which in Python raises KeyError if
the dict lacks the key; this fallibility is made explicit with Option. -/
def add_pantry (db : DeduplicatedPantryDatabase) (p : Pantry) :
    Option (DeduplicatedPantryDatabase × Bool) :=
  let fingerprint := p.get_fingerprint
  if fingerprint ∈ db.fingerprints then
    match findVal fingerprint db.pantries with
    | none => none
    | some existing =>
      some ({ pantries := setVal fingerprint (existing.merge_with p) db.pantries,
              fingerprints := db.fingerprints }, false)
  else
    some ({ pantries := db.pantries ++ [(fingerprint, p)],
            fingerprints := db.fingerprints ++ [fingerprint] }, true)

/-- Structural invariant of every DeduplicatedPantryDatabase built by
__init__ and add_pantry: the fingerprint set tracks exactly the dict keys
(in insertion order), and dict keys are unique. -/
def DBInv (db : DeduplicatedPantryDatabase) : Prop :=
  db.fingerprints = db.pantries.map Prod.fst ∧
  (db.pantries.map Prod.fst).Nodup

/-- Database states reachable from __init__ by successful add_pantry
calls. -/
inductive Reachable : DeduplicatedPantryDatabase → Prop
  | init : Reachable ⟨[], []⟩
  | step {db db' : DeduplicatedPantryDatabase} {p : Pantry} {b : Bool} :
      Reachable db → add_pantry db p = some (db', b) → Reachable db'

/-- listStarts pat l: pat is an initial segment of l (Python
str.startswith on character lists, also the primitive for substring
containment). -/
def listStarts : List Char → List Char → Bool
  | [], _ => true
  | _ :: _, [] => false
  | a :: as, b :: bs => a == b && listStarts as bs

/-- containsSubList pat l: pat occurs as a contiguous run of l. -/
def containsSubList (pat : List Char) : List Char → Bool
  | [] => listStarts pat []
  | c :: rest => listStarts pat (c :: rest) || containsSubList pat rest

/-- Python `pat in s` on strings. -/
def containsSub (s pat : String) : Bool :=
  containsSubList pat.data s.data

/-- Python s.startswith(pat). -/
def startsWithStr (s pat : String) : Bool :=
  listStarts pat.data s.data

/-- Helper for Python str.replace(pat, ''): while the skip counter is
positive, characters belong to an occurrence being deleted. -/
def removeAllAux (pat : List Char) : List Char → Nat → List Char
  | [], _ => []
  | _ :: rest, k + 1 => removeAllAux pat rest k
  | c :: rest, 0 =>
    if pat ≠ [] && listStarts pat (c :: rest) then
      removeAllAux pat rest (pat.length - 1)
    else c :: removeAllAux pat rest 0

/-- Python s.replace(pat, ''): delete every non-overlapping occurrence of
pat, scanning left to right. -/
def removeAll (s pat : String) : String :=
  String.mk (removeAllAux pat.data s.data 0)

/-- One hyperlink of a fetched page: its href attribute, its anchor text
(get_text()), and the text of its parent element when it has one. -/
structure Link where
  href : String
  text : String
  parentText : Option String
deriving DecidableEq, Repr

/-- The ordered length-guarded rule cascade shared by the hours /
description / requirements extractions: each list entry is the raw
captured string of one regex rule (none when the rule did not match); the
first capture that strips to fewer than cap characters wins, an
over-the-cap capture is discarded and the cascade proceeds to the next
rule. -/
def cascade (cap : Nat) : List (Option String) → Option String
  | [] => none
  | none :: rest => cascade cap rest
  | some s :: rest =>
    if (pyStrip s).length < cap then some (pyStrip s) else cascade cap rest

namespace FoodPantriesOrg

/-- The link-scanning loop of FoodPantriesScraper.scrape_pantry_details
(foodpantries-scraper.py lines 225-242).  The accumulator carries the
email found so far; the loop breaks as soon as a website is chosen. -/
def scanLinks : List Link → Option String → Option String × Option String
  | [], email => (email, none)
  | l :: rest, email =>
    let href := pyStrip l.href
    if containsSub href "mailto:" then
      let addr := pyStrip (removeAll href "mailto:")
      let email' :=
        if addr.data.any (· == '@') && !pyTruthyO email then some addr
        else email
      scanLinks rest email'
    else if startsWithStr href "http" && !containsSub href "foodpantries.org" then
      let ltext := pyLower (pyStrip l.text)
      let ptext :=
        match l.parentText with
        | some t => pyStrip t
        | none => ""
      if containsSub ltext "website" || containsSub ltext "visit" ||
         containsSub ltext "home" || containsSub ltext "more info" then
        (email, some href)
      else if containsSub (pyLower ptext) "website" then (email, some href)
      else scanLinks rest email
    else scanLinks rest email

/-- FoodPantriesScraper.scrape_pantry_details (foodpantries-scraper.py
lines 157-262).  The re.search calls are oracle parameters holding the
raw captured groups of each pattern: nameRes the name rule's group(1),
contactRes the four groups of the contact-section rule, phoneRes / faxRes
/ hoursRes / reqRes the respective group(1) captures.  Everything after
the searches (strip, the mandatory-name guard, the 500-character caps,
the link scan, record construction) is embedded from the source. -/
def scrape_pantry_details (pantry_url : String) (nameRes : Option String)
    (contactRes : Option (String × String × String × String))
    (phoneRes faxRes hoursRes reqRes : Option String)
    (links : List Link) : Option Pantry :=
  let name := nameRes.map pyStrip
  if !pyTruthyO name then none
  else
    let address := contactRes.map (fun g => pyStrip g.1)
    let city := contactRes.map (fun g => pyStrip g.2.1)
    let state := contactRes.map (fun g => g.2.2.1)
    let zipCode := contactRes.map (fun g => g.2.2.2)
    let phone := phoneRes.map pyStrip
    let fax := faxRes.map pyStrip
    let hours := cascade 500 [hoursRes]
    let requirements := cascade 500 [reqRes]
    let ew := scanLinks links none
    some { name := name.getD "", address := address, city := city,
           state := state, zip := zipCode, phone := phone, fax := fax,
           email := ew.1, website := ew.2, hours := hours,
           description := none, requirements := requirements,
           source_url := some pantry_url,
           source_site := some "foodpantries.org" }

end FoodPantriesOrg

namespace Network211

/-- The name value of Network211Scraper.scrape_pantry_detail before the
final guard (foodpantries-scraper.py lines 342-351): the stripped h1
text if truthy, else the stripped first '|'-segment of the stripped
title text when a title exists. -/
def rawName (h1Res titleRes : Option String) : Option String :=
  let name0 := h1Res.map pyStrip
  if pyTruthyO name0 then name0
  else
    match titleRes with
    | some t => some (pyStrip (((pyStrip t).splitOn "|").headD ""))
    | none => name0

/-- The name extraction of scrape_pantry_detail including the final
`if not name: return None` guard (lines 353-354): none when no rule
yields a truthy name. -/
def extractName (h1Res titleRes : Option String) : Option String :=
  if pyTruthyO (rawName h1Res titleRes) then rawName h1Res titleRes
  else none

/-- The phone cascade of scrape_pantry_detail (lines 367-377): the first
matching pattern's stripped capture wins; there is no length guard. -/
def firstCapture : List (Option String) → Option String
  | [] => none
  | none :: rest => firstCapture rest
  | some s :: _ => some (pyStrip s)

/-- The website link loop of scrape_pantry_detail (lines 386-393): first
link whose raw href starts with http, mentions neither communityos.org
nor 211, and whose lowered stripped anchor text mentions
website/visit/home. -/
def scanWebsite : List Link → Option String
  | [] => none
  | l :: rest =>
    let href := l.href
    if startsWithStr href "http" && !containsSub href "communityos.org" &&
       !containsSub href "211" then
      let ltext := pyLower (pyStrip l.text)
      if containsSub ltext "website" || containsSub ltext "visit" ||
         containsSub ltext "home" then some href
      else scanWebsite rest
    else scanWebsite rest

/-- Network211Scraper.scrape_pantry_detail (foodpantries-scraper.py lines
335-455).  h1Res / titleRes are the raw texts of the h1 and title
elements; addrRes the four groups of the address pattern; phoneRess the
raw captures of the three phone patterns in order; emailRes the raw
group(0) of the email regex; hoursRess / descRess / reqRess the raw
captures of the two-rule hours, description and requirements cascades. -/
def scrape_pantry_detail (url region : String) (h1Res titleRes : Option String)
    (addrRes : Option (String × String × String × String))
    (phoneRess : List (Option String)) (emailRes : Option String)
    (links : List Link) (hoursRess descRess reqRess : List (Option String)) :
    Option Pantry :=
  match extractName h1Res titleRes with
  | none => none
  | some name =>
    some { name := name,
           address := addrRes.map (fun g => pyStrip g.1),
           city := addrRes.map (fun g => pyStrip g.2.1),
           state := addrRes.map (fun g => g.2.2.1),
           zip := addrRes.map (fun g => g.2.2.2),
           phone := firstCapture phoneRess,
           fax := none,
           email := emailRes,
           website := scanWebsite links,
           hours := cascade 500 hoursRess,
           description := cascade 1000 descRess,
           requirements := cascade 500 reqRess,
           source_url := some url,
           source_site := some ("211 " ++ region) }

end Network211

namespace FlaskBackend

/-- The data dict built by FoodPantriesScraper.scrape_pantry_details in
flask-scraper-backend.py (lines 265-280), fields in dict order.  name is
Optional here: the flask extractor has no mandatory-name guard. -/
structure FlaskRecord where
  url : String
  name : Option String
  address : Option String
  city : Option String
  state : Option String
  zip : Option String
  phone : Option String
  fax : Option String
  email : Option String
  website : Option String
  hours : Option String
  description : Option String
  requirements : Option String
  scraped_at : String
deriving DecidableEq, Repr

/-- The email/website link loop of the flask scrape_pantry_details
(flask-scraper-backend.py lines 339-348): hrefs are not stripped, there
is no break, no anchor-text indicator test, and among external links the
shortest href wins (a strictly shorter one replaces the current
choice). -/
def scanLinks : List Link → Option String → Option String →
    Option String × Option String
  | [], email, website => (email, website)
  | l :: rest, email, website =>
    let href := l.href
    if containsSub href "mailto:" then
      let addr := pyStrip (removeAll href "mailto:")
      let email' :=
        if addr.data.any (· == '@') && !pyTruthyO email then some addr
        else email
      scanLinks rest email' website
    else if startsWithStr href "http" && !containsSub href "foodpantries.org" then
      let website' :=
        if !pyTruthyO website || href.length < (website.getD "").length then
          some href
        else website
      scanLinks rest email website'
    else scanLinks rest email website

/-- FoodPantriesScraper.scrape_pantry_details of flask-scraper-backend.py
(lines 258-356).  ts is the datetime.now() timestamp; the re.search
calls are oracle parameters with the raw captured strings (for the hours
patterns, the string of the group the code selects).  The dict is always
returned - there is no name guard and description is never assigned. -/
def scrape_pantry_details (pantry_url ts : String) (nameRes : Option String)
    (contactRes : Option (String × String × String × String))
    (phoneRes faxRes : Option String) (hoursRess : List (Option String))
    (reqRes : Option String) (links : List Link) : Option FlaskRecord :=
  let ew := scanLinks links none none
  some { url := pantry_url,
         name := nameRes.map pyStrip,
         address := contactRes.map (fun g => pyStrip g.1),
         city := contactRes.map (fun g => pyStrip g.2.1),
         state := contactRes.map (fun g => g.2.2.1),
         zip := contactRes.map (fun g => g.2.2.2),
         phone := phoneRes.map pyStrip,
         fax := faxRes.map pyStrip,
         email := ew.1,
         website := ew.2,
         hours := cascade 500 hoursRess,
         description := none,
         requirements := cascade 500 [reqRes],
         scraped_at := ts }

/-- The global scraping_state dict (flask-scraper-backend.py lines
21-28). -/
structure ScrapingState where
  is_scraping : Bool
  current : Nat
  total : Nat
  status : String
  data : List FlaskRecord
  stop_event : Bool
deriving Repr

/-- The JSON body of a POST /api/scrape request. -/
structure StartRequest where
  state : Option String
  limit : Option Nat
  geocode : Bool

/-- Outcome reported by the start_scrape endpoint. -/
inductive StartResult
  | conflict
  | missingState
  | started
deriving DecidableEq, Repr

/-- start_scrape (flask-scraper-backend.py lines 456-493): reject with
409-style conflict while a run is in progress (leaving the state
untouched), reject a missing/empty state parameter, otherwise reset the
counters, status and dataset and mark the run started. -/
def start_scrape (st : ScrapingState) (body : StartRequest) :
    ScrapingState × StartResult :=
  if st.is_scraping then (st, StartResult.conflict)
  else if !pyTruthyO body.state then (st, StartResult.missingState)
  else ({ st with is_scraping := true, current := 0, total := 0,
                  status := "Starting...", data := [] },
        StartResult.started)

/-- stop_scrape (flask-scraper-backend.py lines 548-555): set the
cancellation event. -/
def stop_scrape (st : ScrapingState) : ScrapingState :=
  { st with stop_event := true }

/-- The per-pantry loop of scrape_in_background (flask-scraper-backend.py
lines 395-422).  q i is the value of stop_event.is_set() at the
checkpoint before item i; details is the composite
scrape-and-maybe-geocode result per URL (None when scraping the page
failed).  Returns (current, data, stopped). -/
def runLoopAux {α β : Type} (q : Nat → Bool) (details : α → Option β) :
    List α → Nat → List β → Nat × List β × Bool
  | [], i, acc => (i, acc, false)
  | u :: rest, i, acc =>
    if q i then (i, acc, true)
    else runLoopAux q details rest (i + 1) (acc ++ (details u).toList)

/-- Outcome of one background run. -/
structure RunOutcome (β : Type) where
  current : Nat
  total : Nat
  data : List β
  stopped : Bool
  status : String
  is_scraping : Bool

/-- scrape_in_background from the point where the pantry URLs have been
discovered (flask-scraper-backend.py lines 382-432), for a run with
geocoding disabled (with geocoding enabled only the transient in-loop
status strings differ; the details oracle already carries the final
per-item dict).  Python truthiness makes `if limit:` skip slicing for
limit = 0; q (length of the sliced list) is the event value at the final
`if not stop_event.is_set()` check. -/
def scrape_in_background {α β : Type} (q : Nat → Bool)
    (details : α → Option β) (pantry_urls : List α) (limit : Option Nat) :
    RunOutcome β :=
  if pantry_urls.isEmpty then
    { current := 0, total := 0, data := [], stopped := false,
      status := "No pantries found", is_scraping := false }
  else
    let urls :=
      match limit with
      | none => pantry_urls
      | some n => if n = 0 then pantry_urls else pantry_urls.take n
    let n := urls.length
    let r := runLoopAux q details urls 0 []
    let stopped := r.2.2
    let statusLoop :=
      if stopped then "Stopped by user"
      else "Scraping pantry " ++ toString n ++ " of " ++ toString n ++ "..."
    let statusFinal :=
      if !q n then
        "Completed! Scraped " ++ toString r.2.1.length ++ " pantries"
      else statusLoop
    { current := r.1, total := n, data := r.2.1, stopped := stopped,
      status := statusFinal, is_scraping := false }

end FlaskBackend

end PantryScraper

open PantryScraper

/-- First colliding record for C10: its fingerprint string is
"a|b|c||" because the '|' in its name is not escaped by the join. -/
def collideA : Pantry := { name := "a|b", address := some "c" }

/-- Second colliding record for C10: a different name/address split
producing the same joined fingerprint string "a|b|c||". -/
def collideB : Pantry := { name := "a", address := some "b|c" }

/-- The database after adding collideA to the empty database. -/
def collideDb1 : DeduplicatedPantryDatabase :=
  ⟨[("a|b|c||", collideA)], ["a|b|c||"]⟩

/-- The database after then adding collideB: the stored entry is the
merge, whose own fingerprint no longer matches the key. -/
def collideDb2 : DeduplicatedPantryDatabase :=
  ⟨[("a|b|c||", collideA.merge_with collideB)], ["a|b|c||"]⟩

/-- The branch conditions of the foodpantries.org link loop, as
predicates on a single link.  A link takes the mailto branch when its
stripped href mentions "mailto:". -/
def fpMailtoHit (l : Link) : Bool :=
  containsSub (pyStrip l.href) "mailto:"

/-- The email address the mailto branch extracts from a link. -/
def fpEmailAddr (l : Link) : String :=
  pyStrip (removeAll (pyStrip l.href) "mailto:")

/-- A link that sets the email field: mailto branch with an address
containing an at sign. -/
def fpEmailHit (l : Link) : Bool :=
  fpMailtoHit l && (fpEmailAddr l).data.any (· == '@')

/-- Lowered stripped anchor text of a link. -/
def fpLinkText (l : Link) : String :=
  pyLower (pyStrip l.text)

/-- Stripped parent text of a link (empty when the link has no
parent). -/
def fpParentText (l : Link) : String :=
  match l.parentText with
  | some t => pyStrip t
  | none => ""

/-- A link that takes the external branch of the foodpantries.org loop:
not a mailto link, href starting with http and not mentioning
foodpantries.org. -/
def fpExternalHit (l : Link) : Bool :=
  !fpMailtoHit l && startsWithStr (pyStrip l.href) "http" &&
  !containsSub (pyStrip l.href) "foodpantries.org"

/-- A link chosen as the website by the foodpantries.org loop: external,
with a website/visit/home/more-info indicator in its anchor text or
"website" in its parent text. -/
def fpWebsiteHit (l : Link) : Bool :=
  fpExternalHit l &&
  (containsSub (fpLinkText l) "website" || containsSub (fpLinkText l) "visit" ||
   containsSub (fpLinkText l) "home" || containsSub (fpLinkText l) "more info" ||
   containsSub (pyLower (fpParentText l)) "website")

/-- Mailto-branch condition of the flask link loop (raw href, no
strip). -/
def flaskMailtoHit (l : Link) : Bool :=
  containsSub l.href "mailto:"

/-- The email address the flask mailto branch extracts. -/
def flaskEmailAddr (l : Link) : String :=
  pyStrip (removeAll l.href "mailto:")

/-- A link that sets the flask email field. -/
def flaskEmailHit (l : Link) : Bool :=
  flaskMailtoHit l && (flaskEmailAddr l).data.any (· == '@')

/-- External-branch condition of the flask link loop. -/
def flaskExternalHit (l : Link) : Bool :=
  !flaskMailtoHit l && startsWithStr l.href "http" &&
  !containsSub l.href "foodpantries.org"

section MergeLemmas

lemma mergeField_self (x : Option String) : mergeField x x = x := by
  cases x with
  | none => rfl
  | some s =>
    simp only [mergeField, pyTruthyO, pyOrO]
    split_ifs <;> simp_all

lemma mergeName_self (x : String) : mergeName x x = x := by
  simp only [mergeName]
  split_ifs <;> simp_all

lemma mergeField_or (x y : Option String) :
    mergeField x y = x ∨ mergeField x y = y := by
  simp only [mergeField, pyOrO]
  split_ifs <;> simp

lemma mergeName_or (x y : String) :
    mergeName x y = x ∨ mergeName x y = y := by
  simp only [mergeName]
  split_ifs <;> simp

lemma merge_with_self (p : Pantry) : p.merge_with p = p := by
  cases p
  simp [Pantry.merge_with, mergeField_self, mergeName_self]

lemma mergeField_absorb (x y : Option String) :
    mergeField (mergeField x y) y = mergeField x y := by
  rcases mergeField_or x y with h | h
  · rw [h]; exact h
  · rw [h, mergeField_self]

lemma mergeName_absorb (x y : String) :
    mergeName (mergeName x y) y = mergeName x y := by
  rcases mergeName_or x y with h | h
  · rw [h]; exact h
  · rw [h, mergeName_self]

lemma merge_with_absorb (a b : Pantry) :
    (a.merge_with b).merge_with b = a.merge_with b := by
  cases a; cases b
  simp [Pantry.merge_with, mergeField_absorb, mergeName_absorb]

end MergeLemmas

section DbLemmas

lemma findVal_isSome_of_mem {k : String} {l : List (String × Pantry)}
    (h : k ∈ l.map Prod.fst) : ∃ v, findVal k l = some v := by
  induction l with
  | nil => simp at h
  | cons kv rest ih =>
    by_cases hk : kv.1 = k
    · exact ⟨kv.2, by simp [findVal, hk]⟩
    · have : k ∈ rest.map Prod.fst := by
        simp only [List.map_cons, List.mem_cons] at h
        rcases h with h | h
        · exact absurd h.symm hk
        · exact h
      obtain ⟨v, hv⟩ := ih this
      exact ⟨v, by simp [findVal, hk, hv]⟩

lemma findVal_eq_none {k : String} {l : List (String × Pantry)}
    (h : k ∉ l.map Prod.fst) : findVal k l = none := by
  induction l with
  | nil => rfl
  | cons kv rest ih =>
    simp only [List.map_cons, List.mem_cons, not_or] at h
    have hne : kv.1 ≠ k := fun hk => h.1 hk.symm
    simp [findVal, hne, ih h.2]

lemma findVal_append_right {k : String} {l₁ l₂ : List (String × Pantry)}
    (h : k ∉ l₁.map Prod.fst) : findVal k (l₁ ++ l₂) = findVal k l₂ := by
  induction l₁ with
  | nil => rfl
  | cons kv rest ih =>
    simp only [List.map_cons, List.mem_cons, not_or] at h
    have hne : kv.1 ≠ k := fun hk => h.1 hk.symm
    simp [findVal, hne, ih h.2]

lemma setVal_map_fst (k : String) (v : Pantry) (l : List (String × Pantry)) :
    (setVal k v l).map Prod.fst = l.map Prod.fst := by
  induction l with
  | nil => rfl
  | cons kv rest ih =>
    simp only [setVal, List.map_cons] at ih ⊢
    by_cases hk : kv.1 = k
    · simp [hk, ih]
    · simp [hk, ih]

lemma setVal_length (k : String) (v : Pantry) (l : List (String × Pantry)) :
    (setVal k v l).length = l.length := by
  simp [setVal]

lemma findVal_setVal_self {k : String} (v : Pantry)
    {l : List (String × Pantry)} (h : k ∈ l.map Prod.fst) :
    findVal k (setVal k v l) = some v := by
  induction l with
  | nil => simp at h
  | cons kv rest ih =>
    by_cases hk : kv.1 = k
    · simp [setVal, findVal, hk]
    · have : k ∈ rest.map Prod.fst := by
        simp only [List.map_cons, List.mem_cons] at h
        rcases h with h | h
        · exact absurd h.symm hk
        · exact h
      simpa [setVal, findVal, hk] using ih this

lemma DBInv_init : DBInv ⟨[], []⟩ := by
  constructor <;> simp [DBInv]

lemma add_pantry_some {db : DeduplicatedPantryDatabase} (p : Pantry)
    (hinv : DBInv db) :
    ∃ db' b, add_pantry db p = some (db', b) := by
  by_cases hfp : p.get_fingerprint ∈ db.fingerprints
  · have hmem : p.get_fingerprint ∈ db.pantries.map Prod.fst := by
      rw [← hinv.1]; exact hfp
    obtain ⟨v, hv⟩ := findVal_isSome_of_mem hmem
    refine ⟨⟨setVal p.get_fingerprint (v.merge_with p) db.pantries,
             db.fingerprints⟩, false, ?_⟩
    simp [add_pantry, hfp, hv]
  · refine ⟨⟨db.pantries ++ [(p.get_fingerprint, p)],
             db.fingerprints ++ [p.get_fingerprint]⟩, true, ?_⟩
    simp [add_pantry, hfp]

lemma DBInv_preserved {db db' : DeduplicatedPantryDatabase} {p : Pantry}
    {b : Bool} (hinv : DBInv db) (h : add_pantry db p = some (db', b)) :
    DBInv db' := by
  by_cases hfp : p.get_fingerprint ∈ db.fingerprints
  · have hmem : p.get_fingerprint ∈ db.pantries.map Prod.fst := by
      rw [← hinv.1]; exact hfp
    obtain ⟨v, hv⟩ := findVal_isSome_of_mem hmem
    simp only [add_pantry, hfp, if_true, hv, Option.some.injEq] at h
    injection h with h1 h2
    subst h1
    constructor
    · simpa [setVal_map_fst] using hinv.1
    · simpa [setVal_map_fst] using hinv.2
  · simp only [add_pantry, hfp, if_false, Option.some.injEq] at h
    injection h with h1 h2
    subst h1
    have hnot : p.get_fingerprint ∉ db.pantries.map Prod.fst := by
      rw [← hinv.1]; exact hfp
    constructor
    · simp [hinv.1]
    · simp only [List.map_append, List.map_cons, List.map_nil]
      exact List.Nodup.append hinv.2 (List.nodup_singleton _)
        (by simpa [List.disjoint_singleton] using hnot)

lemma Reachable_DBInv {db : DeduplicatedPantryDatabase}
    (h : Reachable db) : DBInv db := by
  induction h with
  | init => exact DBInv_init
  | step _ hadd ih => exact DBInv_preserved ih hadd

lemma add_pantry_present {db : DeduplicatedPantryDatabase} {p v : Pantry}
    (hfp : p.get_fingerprint ∈ db.fingerprints)
    (hv : findVal p.get_fingerprint db.pantries = some v) :
    add_pantry db p =
      some (⟨setVal p.get_fingerprint (v.merge_with p) db.pantries,
             db.fingerprints⟩, false) := by
  simp [add_pantry, hfp, hv]

lemma add_pantry_absent {db : DeduplicatedPantryDatabase} {p : Pantry}
    (hfp : p.get_fingerprint ∉ db.fingerprints) :
    add_pantry db p =
      some (⟨db.pantries ++ [(p.get_fingerprint, p)],
             db.fingerprints ++ [p.get_fingerprint]⟩, true) := by
  simp [add_pantry, hfp]

/-- After a successful add, the fingerprint is tracked and the record
stored under it absorbs a further merge with p. -/
lemma add_pantry_post {db db' : DeduplicatedPantryDatabase} {p : Pantry}
    {b : Bool} (hinv : DBInv db) (h : add_pantry db p = some (db', b)) :
    p.get_fingerprint ∈ db'.fingerprints ∧
    ∃ v, findVal p.get_fingerprint db'.pantries = some v ∧
      v.merge_with p = v := by
  by_cases hfp : p.get_fingerprint ∈ db.fingerprints
  · have hmem : p.get_fingerprint ∈ db.pantries.map Prod.fst := by
      rw [← hinv.1]; exact hfp
    obtain ⟨v, hv⟩ := findVal_isSome_of_mem hmem
    rw [add_pantry_present hfp hv] at h
    injection h with h0
    injection h0 with h1 h2
    subst h1
    exact ⟨hfp, v.merge_with p, findVal_setVal_self _ hmem,
           merge_with_absorb v p⟩
  · rw [add_pantry_absent hfp] at h
    injection h with h0
    injection h0 with h1 h2
    subst h1
    have hnot : p.get_fingerprint ∉ db.pantries.map Prod.fst := by
      rw [← hinv.1]; exact hfp
    refine ⟨by simp, p, ?_, merge_with_self p⟩
    rw [findVal_append_right hnot]
    simp [findVal]

end DbLemmas

section FingerprintLemmas

lemma nameNorm_eq (n : String) : nameNorm n = pyStrip (pyLower n) := by
  by_cases h : n = ""
  · subst h; rfl
  · simp [nameNorm, h]

lemma optNorm_eq (o : Option String) :
    optNorm o = pyStrip (pyLower (o.getD "")) := by
  cases o with
  | none => rfl
  | some s =>
    by_cases h : s = ""
    · subst h; rfl
    · simp [optNorm, h]

lemma phoneNorm_eq (o : Option String) :
    phoneNorm o = digitsOnly (o.getD "") := by
  cases o with
  | none => rfl
  | some s =>
    by_cases h : s = ""
    · subst h; rfl
    · simp [phoneNorm, h]

lemma zipOrEmpty_eq (o : Option String) : zipOrEmpty o = o.getD "" := by
  cases o <;> rfl

end FingerprintLemmas

/-- C1: for every database state satisfying the dict/set structural
invariant and every Pantry p with a name, add_pantry computes p's
fingerprint and succeeds: if the fingerprint is not yet a key it inserts
p under it and returns isNew = true, otherwise it replaces the stored
record with merge(stored, p) and returns isNew = false; afterwards the
keys are still unique (at most one record per fingerprint). -/
theorem claim_C1 (db : DeduplicatedPantryDatabase) (p : Pantry)
    (hinv : DBInv db) (_hname : p.name ≠ "") :
    ∃ db' isNew, add_pantry db p = some (db', isNew) ∧
      (isNew = true ↔ p.get_fingerprint ∉ db.fingerprints) ∧
      (isNew = true →
        db'.pantries = db.pantries ++ [(p.get_fingerprint, p)] ∧
        findVal p.get_fingerprint db'.pantries = some p) ∧
      (isNew = false →
        ∃ stored, findVal p.get_fingerprint db.pantries = some stored ∧
          findVal p.get_fingerprint db'.pantries =
            some (stored.merge_with p) ∧
          db'.pantries.map Prod.fst = db.pantries.map Prod.fst) ∧
      (db'.pantries.map Prod.fst).Nodup := by
  by_cases hfp : p.get_fingerprint ∈ db.fingerprints
  · have hmem : p.get_fingerprint ∈ db.pantries.map Prod.fst := by
      rw [← hinv.1]; exact hfp
    obtain ⟨v, hv⟩ := findVal_isSome_of_mem hmem
    refine ⟨_, false, add_pantry_present hfp hv, by simp [hfp], by simp, ?_, ?_⟩
    · exact fun _ => ⟨v, hv, findVal_setVal_self _ hmem, setVal_map_fst _ _ _⟩
    · simpa [setVal_map_fst] using hinv.2
  · have hnot : p.get_fingerprint ∉ db.pantries.map Prod.fst := by
      rw [← hinv.1]; exact hfp
    refine ⟨_, true, add_pantry_absent hfp, by simp [hfp], ?_, by simp, ?_⟩
    · refine fun _ => ⟨rfl, ?_⟩
      rw [findVal_append_right hnot]
      simp [findVal]
    · simp only [List.map_append, List.map_cons, List.map_nil]
      exact List.Nodup.append hinv.2 (List.nodup_singleton _)
        (by simpa [List.disjoint_singleton] using hnot)

/-- Witness for C1: adding a concrete record to the empty database. -/
theorem claim_C1_witness :
    DBInv ⟨[], []⟩ ∧ ("Community Pantry" : String) ≠ "" ∧
    ∃ db' isNew,
      add_pantry ⟨[], []⟩ { name := "Community Pantry" } = some (db', isNew) ∧
      (isNew = true ↔
        Pantry.get_fingerprint { name := "Community Pantry" } ∉
          DeduplicatedPantryDatabase.fingerprints ⟨[], []⟩) ∧
      (isNew = true →
        db'.pantries = [] ++
          [(Pantry.get_fingerprint { name := "Community Pantry" },
            { name := "Community Pantry" })] ∧
        findVal (Pantry.get_fingerprint { name := "Community Pantry" })
          db'.pantries = some { name := "Community Pantry" }) ∧
      (isNew = false →
        ∃ stored,
          findVal (Pantry.get_fingerprint { name := "Community Pantry" })
            ([] : List (String × Pantry)) = some stored ∧
          findVal (Pantry.get_fingerprint { name := "Community Pantry" })
            db'.pantries = some (stored.merge_with { name := "Community Pantry" }) ∧
          db'.pantries.map Prod.fst = ([] : List (String × Pantry)).map Prod.fst) ∧
      (db'.pantries.map Prod.fst).Nodup :=
  ⟨DBInv_init, by decide,
   claim_C1 ⟨[], []⟩ { name := "Community Pantry" } DBInv_init (by decide)⟩

/-- C2: two Pantry records whose names agree after lower-casing and
trimming, whose addresses agree after lower-casing and trimming (an
absent address reading as the empty string), whose phone numbers carry
the same digit sequence, and whose zip fields agree (absent read as the
empty string), receive the same fingerprint key. -/
theorem claim_C2 (a b : Pantry)
    (hname : pyStrip (pyLower a.name) = pyStrip (pyLower b.name))
    (haddr : pyStrip (pyLower (a.address.getD "")) =
             pyStrip (pyLower (b.address.getD "")))
    (hphone : digitsOnly (a.phone.getD "") = digitsOnly (b.phone.getD ""))
    (hzip : a.zip.getD "" = b.zip.getD "") :
    a.get_fingerprint = b.get_fingerprint := by
  simp only [Pantry.get_fingerprint, nameNorm_eq, optNorm_eq, phoneNorm_eq,
             zipOrEmpty_eq, hname, haddr, hphone, hzip]

/-- Witness for C2: the spec's cosmetic variations - phone punctuation,
surrounding whitespace and case - hash identically. -/
theorem claim_C2_witness :
    digitsOnly "(555) 123-4567" = digitsOnly "555-123-4567" ∧
    Pantry.get_fingerprint
      { name := "Food Pantry", address := some "12 Elm St",
        phone := some "(555) 123-4567" } =
    Pantry.get_fingerprint
      { name := "  FOOD pantry ", address := some " 12 ELM ST",
        phone := some "555-123-4567" } :=
  ⟨by decide,
   claim_C2 _ _ (by decide) (by decide) (by decide) (by decide)⟩

/-- C3: merge_with works field-by-field: with both values present
(Python-truthy, i.e. a non-empty string, matching the spec's "absent is
no-value, not empty string" data model) the longer wins and a tie keeps
the stored record's value; with exactly one present, that one is kept;
with neither present, the result is absent; in particular website and
phone cross-populate as in the spec's example. -/
theorem claim_C3 :
    (∀ x y : String, x ≠ "" → y ≠ "" →
      mergeField (some x) (some y) =
        if y.length ≤ x.length then some x else some y) ∧
    (∀ x y : Option String, pyTruthyO x = true → pyTruthyO y = false →
      mergeField x y = x) ∧
    (∀ x y : Option String, pyTruthyO x = false → pyTruthyO y = true →
      mergeField x y = y) ∧
    (∀ x y : Option String, pyTruthyO x = false → pyTruthyO y = false →
      pyTruthyO (mergeField x y) = false) ∧
    (∀ a b : Pantry, a.website = none → a.phone = some "555-0100" →
      b.website = some "http://x.org" → b.phone = none →
      (a.merge_with b).website = some "http://x.org" ∧
      (a.merge_with b).phone = some "555-0100") := by
  refine ⟨?_, ?_, ?_, ?_, ?_⟩
  · intro x y hx hy
    simp [mergeField, pyTruthyO, hx, hy]
  · intro x y hx hy
    simp [mergeField, pyOrO, hx, hy]
  · intro x y hx hy
    simp [mergeField, pyOrO, hx, hy]
  · intro x y hx hy
    simp [mergeField, pyOrO, hx, hy]
  · intro a b hw1 hp1 hw2 hp2
    constructor
    · show mergeField a.website b.website = some "http://x.org"
      rw [hw1, hw2]
      decide
    · show mergeField a.phone b.phone = some "555-0100"
      rw [hp1, hp2]
      decide

/-- Witness for C3: each merge case evaluated at concrete field values,
and the spec's website/phone example on full records. -/
theorem claim_C3_witness :
    mergeField (some "abc") (some "zz") = some "abc" ∧
    mergeField (some "ab") (some "xy") = some "ab" ∧
    mergeField (some "a") none = some "a" ∧
    mergeField none (some "b") = some "b" ∧
    pyTruthyO (mergeField none none) = false ∧
    (Pantry.merge_with
        { name := "A", website := none, phone := some "555-0100" }
        { name := "A", website := some "http://x.org", phone := none }).website =
      some "http://x.org" ∧
    (Pantry.merge_with
        { name := "A", website := none, phone := some "555-0100" }
        { name := "A", website := some "http://x.org", phone := none }).phone =
      some "555-0100" := by
  have h1 := claim_C3.1 "abc" "zz" (by decide) (by decide)
  have h2 := claim_C3.1 "ab" "xy" (by decide) (by decide)
  have h3 := claim_C3.2.1 (some "a") none (by decide) (by decide)
  have h4 := claim_C3.2.2.1 none (some "b") (by decide) (by decide)
  have h5 := claim_C3.2.2.2.1 none none (by decide) (by decide)
  have h6 := claim_C3.2.2.2.2
    { name := "A", website := none, phone := some "555-0100" }
    { name := "A", website := some "http://x.org", phone := none }
    rfl rfl rfl rfl
  exact ⟨by simpa using h1, by simpa using h2, h3, h4, h5, h6.1, h6.2⟩

/-- C4: merge is idempotent - r.merge_with(r) = r - and adding the same
record twice to any database satisfying the structural invariant leaves
the record count and the record stored under its fingerprint unchanged
after the second call (which reports isNew = false). -/
theorem claim_C4 :
    (∀ r : Pantry, r.merge_with r = r) ∧
    (∀ (db db₁ db₂ : DeduplicatedPantryDatabase) (p : Pantry) (b₁ b₂ : Bool),
      DBInv db → add_pantry db p = some (db₁, b₁) →
      add_pantry db₁ p = some (db₂, b₂) →
      b₂ = false ∧
      db₂.pantries.length = db₁.pantries.length ∧
      findVal p.get_fingerprint db₂.pantries =
        findVal p.get_fingerprint db₁.pantries) := by
  refine ⟨merge_with_self, ?_⟩
  intro db db₁ db₂ p b₁ b₂ hinv h1 h2
  have hinv₁ : DBInv db₁ := DBInv_preserved hinv h1
  obtain ⟨hfp₁, v, hv, habs⟩ := add_pantry_post hinv h1
  have hmem₁ : p.get_fingerprint ∈ db₁.pantries.map Prod.fst := by
    rw [← hinv₁.1]; exact hfp₁
  rw [add_pantry_present hfp₁ hv] at h2
  injection h2 with h0
  injection h0 with hdb hb
  subst hdb
  refine ⟨hb.symm, setVal_length _ _ _, ?_⟩
  rw [findVal_setVal_self _ hmem₁, hv, habs]

/-- Witness for C4: inserting the same concrete record twice into the
empty database. -/
theorem claim_C4_witness :
    (Pantry.merge_with { name := "Elm Food Bank" } { name := "Elm Food Bank" } =
      { name := "Elm Food Bank" }) ∧
    (false = false ∧
      (DeduplicatedPantryDatabase.pantries
        ⟨[(Pantry.get_fingerprint { name := "Elm Food Bank" },
           { name := "Elm Food Bank" })],
         [Pantry.get_fingerprint { name := "Elm Food Bank" }]⟩).length =
      (DeduplicatedPantryDatabase.pantries
        ⟨[(Pantry.get_fingerprint { name := "Elm Food Bank" },
           { name := "Elm Food Bank" })],
         [Pantry.get_fingerprint { name := "Elm Food Bank" }]⟩).length ∧
      findVal (Pantry.get_fingerprint { name := "Elm Food Bank" })
        (DeduplicatedPantryDatabase.pantries
          ⟨[(Pantry.get_fingerprint { name := "Elm Food Bank" },
             { name := "Elm Food Bank" })],
           [Pantry.get_fingerprint { name := "Elm Food Bank" }]⟩) =
      findVal (Pantry.get_fingerprint { name := "Elm Food Bank" })
        (DeduplicatedPantryDatabase.pantries
          ⟨[(Pantry.get_fingerprint { name := "Elm Food Bank" },
             { name := "Elm Food Bank" })],
           [Pantry.get_fingerprint { name := "Elm Food Bank" }]⟩)) := by
  constructor
  · exact claim_C4.1 { name := "Elm Food Bank" }
  · exact claim_C4.2 ⟨[], []⟩ _ _ { name := "Elm Food Bank" } true false
      DBInv_init (by decide) (by decide)


/-- Counterexample to C10: collideA and collideB share the fingerprint
key "a|b|c||" (their field-joins coincide although the individual
normalized fields differ), so the second add merges them; merge picks
the longer name from one record and the longer address from the other,
and the stored record's recomputed fingerprint "a|b|b|c||" differs from
the key it is stored under. -/
theorem claim_C10_counterexample :
    collideA.get_fingerprint = "a|b|c||" ∧
    collideB.get_fingerprint = "a|b|c||" ∧
    add_pantry ⟨[], []⟩ collideA = some (collideDb1, true) ∧
    add_pantry collideDb1 collideB = some (collideDb2, false) ∧
    findVal "a|b|c||" collideDb2.pantries =
      some (collideA.merge_with collideB) ∧
    (collideA.merge_with collideB).get_fingerprint ≠ "a|b|c||" := by
  decide

/-- C10 as amended: (1) on every state reachable from the empty database
by add_pantry, the fingerprints set equals the key set of the pantries
mapping and keys are unique; (2) merging two records whose four
normalized fingerprint components (normalized name, normalized address,
phone digits, zip-or-empty) agree componentwise yields a record with the
same fingerprint as both - the unrestricted claim fails because the
unescaped '|' join lets records with different components share a key
(claim_C10_counterexample). -/
theorem claim_C10_amended :
    (∀ db : DeduplicatedPantryDatabase, Reachable db →
      db.fingerprints = db.pantries.map Prod.fst ∧
      (db.pantries.map Prod.fst).Nodup) ∧
    (∀ a b : Pantry, nameNorm a.name = nameNorm b.name →
      optNorm a.address = optNorm b.address →
      phoneNorm a.phone = phoneNorm b.phone →
      zipOrEmpty a.zip = zipOrEmpty b.zip →
      (a.merge_with b).get_fingerprint = a.get_fingerprint ∧
      (a.merge_with b).get_fingerprint = b.get_fingerprint) := by
  constructor
  · intro db h
    exact Reachable_DBInv h
  · intro a b hname haddr hphone hzip
    have hn : nameNorm (mergeName a.name b.name) = nameNorm a.name := by
      rcases mergeName_or a.name b.name with h | h <;> rw [h]
      exact hname.symm
    have ha : optNorm (mergeField a.address b.address) = optNorm a.address := by
      rcases mergeField_or a.address b.address with h | h <;> rw [h]
      exact haddr.symm
    have hp : phoneNorm (mergeField a.phone b.phone) = phoneNorm a.phone := by
      rcases mergeField_or a.phone b.phone with h | h <;> rw [h]
      exact hphone.symm
    have hz : zipOrEmpty (mergeField a.zip b.zip) = zipOrEmpty a.zip := by
      rcases mergeField_or a.zip b.zip with h | h <;> rw [h]
      exact hzip.symm
    constructor
    · show nameNorm (mergeName a.name b.name) ++ "|" ++
        optNorm (mergeField a.address b.address) ++ "|" ++
        phoneNorm (mergeField a.phone b.phone) ++ "|" ++
        zipOrEmpty (mergeField a.zip b.zip) = a.get_fingerprint
      rw [hn, ha, hp, hz]
      rfl
    · show nameNorm (mergeName a.name b.name) ++ "|" ++
        optNorm (mergeField a.address b.address) ++ "|" ++
        phoneNorm (mergeField a.phone b.phone) ++ "|" ++
        zipOrEmpty (mergeField a.zip b.zip) = b.get_fingerprint
      rw [hn, ha, hp, hz, Pantry.get_fingerprint, hname, haddr, hphone, hzip]

/-- Witness for C10 as amended: the empty database is reachable and
satisfies the invariant, and a componentwise-equal concrete merge keeps
its fingerprint. -/
theorem claim_C10_amended_witness :
    ((DeduplicatedPantryDatabase.fingerprints ⟨[], []⟩ =
        (DeduplicatedPantryDatabase.pantries ⟨[], []⟩).map Prod.fst ∧
      ((DeduplicatedPantryDatabase.pantries ⟨[], []⟩).map Prod.fst).Nodup) ∧
     ((Pantry.merge_with { name := "Elm Pantry", phone := some "(555) 123-4567" }
        { name := " elm pantry ", phone := some "555-123-4567" }).get_fingerprint =
      Pantry.get_fingerprint { name := "Elm Pantry", phone := some "(555) 123-4567" } ∧
      (Pantry.merge_with { name := "Elm Pantry", phone := some "(555) 123-4567" }
        { name := " elm pantry ", phone := some "555-123-4567" }).get_fingerprint =
      Pantry.get_fingerprint { name := " elm pantry ", phone := some "555-123-4567" })) :=
  ⟨claim_C10_amended.1 ⟨[], []⟩ Reachable.init,
   claim_C10_amended.2 _ _ (by decide) (by decide) (by decide) (by decide)⟩

section ScrapeLemmas

lemma pyTruthyO_some {s : String} (h : s ≠ "") :
    pyTruthyO (some s) = true := by
  simp [pyTruthyO, h]

/-- Destructure a successful foodpantries.org extraction: the record is
the literal built by the function, and the name rule yielded a truthy
name. -/
lemma fp_scrape_some {url : String} {nameRes : Option String}
    {contactRes : Option (String × String × String × String)}
    {phoneRes faxRes hoursRes reqRes : Option String} {links : List Link}
    {p : Pantry}
    (h : FoodPantriesOrg.scrape_pantry_details url nameRes contactRes
      phoneRes faxRes hoursRes reqRes links = some p) :
    pyTruthyO (nameRes.map pyStrip) = true ∧
    p.name = (nameRes.map pyStrip).getD "" ∧
    p.hours = cascade 500 [hoursRes] ∧
    p.requirements = cascade 500 [reqRes] ∧
    p.email = (FoodPantriesOrg.scanLinks links none).1 ∧
    p.website = (FoodPantriesOrg.scanLinks links none).2 := by
  by_cases hn : pyTruthyO (nameRes.map pyStrip) = true
  · simp only [FoodPantriesOrg.scrape_pantry_details, hn, Bool.not_true,
      Bool.false_eq_true, if_false, Option.some.injEq] at h
    subst h
    exact ⟨hn, rfl, rfl, rfl, rfl, rfl⟩
  · rw [Bool.not_eq_true] at hn
    simp [FoodPantriesOrg.scrape_pantry_details, hn] at h

/-- A name accepted by Network211.extractName is nonempty. -/
lemma nw_extractName_ne {h1Res titleRes : Option String} {s : String}
    (h : Network211.extractName h1Res titleRes = some s) : s ≠ "" := by
  unfold Network211.extractName at h
  by_cases hb : pyTruthyO (Network211.rawName h1Res titleRes) = true
  · rw [if_pos hb] at h
    rw [h] at hb
    intro hs
    rw [hs] at hb
    simp [pyTruthyO] at hb
  · rw [if_neg hb] at h
    exact Option.noConfusion h

/-- Destructure a successful 211 extraction. -/
lemma nw_scrape_some {url region : String} {h1Res titleRes : Option String}
    {addrRes : Option (String × String × String × String)}
    {phoneRess : List (Option String)} {emailRes : Option String}
    {links : List Link} {hoursRess descRess reqRess : List (Option String)}
    {p : Pantry}
    (h : Network211.scrape_pantry_detail url region h1Res titleRes addrRes
      phoneRess emailRes links hoursRess descRess reqRess = some p) :
    Network211.extractName h1Res titleRes = some p.name ∧
    p.hours = cascade 500 hoursRess ∧
    p.description = cascade 1000 descRess ∧
    p.requirements = cascade 500 reqRess := by
  unfold Network211.scrape_pantry_detail at h
  cases hn : Network211.extractName h1Res titleRes with
  | none => rw [hn] at h; exact Option.noConfusion h
  | some nm =>
    rw [hn] at h
    have hp := Option.some.inj h
    refine ⟨?_, ?_, ?_, ?_⟩
    · rw [← hp]
    · rw [← hp]
    · rw [← hp]
    · rw [← hp]

/-- The flask extractor always returns the record literal it builds. -/
lemma flask_scrape_eq (url ts : String) (nameRes : Option String)
    (contactRes : Option (String × String × String × String))
    (phoneRes faxRes : Option String) (hoursRess : List (Option String))
    (reqRes : Option String) (links : List Link) :
    FlaskBackend.scrape_pantry_details url ts nameRes contactRes phoneRes
      faxRes hoursRess reqRes links =
    some { url := url,
           name := nameRes.map pyStrip,
           address := contactRes.map (fun g => pyStrip g.1),
           city := contactRes.map (fun g => pyStrip g.2.1),
           state := contactRes.map (fun g => g.2.2.1),
           zip := contactRes.map (fun g => g.2.2.2),
           phone := phoneRes.map pyStrip,
           fax := faxRes.map pyStrip,
           email := (FlaskBackend.scanLinks links none none).1,
           website := (FlaskBackend.scanLinks links none none).2,
           hours := cascade 500 hoursRess,
           description := none,
           requirements := cascade 500 [reqRes],
           scraped_at := ts } := rfl

end ScrapeLemmas

/-- Counterexample to C5: the flask backend extractor, run on a page
where no rule yields a name, still produces a record - with the name
field absent - instead of failing. -/
theorem claim_C5_counterexample :
    FlaskBackend.scrape_pantry_details "http://u" "2025-01-01" none none
      none none [] none [] =
    some { url := "http://u", name := none, address := none, city := none,
           state := none, zip := none, phone := none, fax := none,
           email := none, website := none, hours := none,
           description := none, requirements := none,
           scraped_at := "2025-01-01" } := by
  decide

/-- C5 as amended: the foodpantries.org and 211 extractors return absent
when no rule yields a (nonempty) name and every record they return
carries a nonempty name; the flask backend extractor, however, always
returns a record, whose name field is just the stripped capture of its
single name rule (absent when the rule did not match) - so that claim's
"every record handed to callers has a name" fails for it
(claim_C5_counterexample). -/
theorem claim_C5_amended :
    (∀ (url : String) (nameRes : Option String)
       (contactRes : Option (String × String × String × String))
       (phoneRes faxRes hoursRes reqRes : Option String) (links : List Link),
      (∀ s, nameRes = some s → pyStrip s = "") →
      FoodPantriesOrg.scrape_pantry_details url nameRes contactRes phoneRes
        faxRes hoursRes reqRes links = none) ∧
    (∀ (url : String) (nameRes : Option String)
       (contactRes : Option (String × String × String × String))
       (phoneRes faxRes hoursRes reqRes : Option String) (links : List Link)
       (p : Pantry),
      FoodPantriesOrg.scrape_pantry_details url nameRes contactRes phoneRes
        faxRes hoursRes reqRes links = some p → p.name ≠ "") ∧
    (∀ (url region : String) (h1Res titleRes : Option String)
       (addrRes : Option (String × String × String × String))
       (phoneRess : List (Option String)) (emailRes : Option String)
       (links : List Link) (hoursRess descRess reqRess : List (Option String)),
      Network211.extractName h1Res titleRes = none →
      Network211.scrape_pantry_detail url region h1Res titleRes addrRes
        phoneRess emailRes links hoursRess descRess reqRess = none) ∧
    (∀ (url region : String) (h1Res titleRes : Option String)
       (addrRes : Option (String × String × String × String))
       (phoneRess : List (Option String)) (emailRes : Option String)
       (links : List Link) (hoursRess descRess reqRess : List (Option String))
       (p : Pantry),
      Network211.scrape_pantry_detail url region h1Res titleRes addrRes
        phoneRess emailRes links hoursRess descRess reqRess = some p →
      p.name ≠ "") ∧
    (∀ (url ts : String) (nameRes : Option String)
       (contactRes : Option (String × String × String × String))
       (phoneRes faxRes : Option String) (hoursRess : List (Option String))
       (reqRes : Option String) (links : List Link),
      ∃ r, FlaskBackend.scrape_pantry_details url ts nameRes contactRes
        phoneRes faxRes hoursRess reqRes links = some r ∧
        r.name = nameRes.map pyStrip) := by
  refine ⟨?_, ?_, ?_, ?_, ?_⟩
  · intro url nameRes contactRes phoneRes faxRes hoursRes reqRes links h
    cases nameRes with
    | none => simp [FoodPantriesOrg.scrape_pantry_details, pyTruthyO]
    | some s =>
      have hs := h s rfl
      simp [FoodPantriesOrg.scrape_pantry_details, pyTruthyO, hs]
  · intro url nameRes contactRes phoneRes faxRes hoursRes reqRes links p h
    obtain ⟨hn, hname, -⟩ := fp_scrape_some h
    cases nameRes with
    | none => simp [pyTruthyO] at hn
    | some s =>
      simp only [Option.map_some, pyTruthyO, ne_eq, bne_iff_ne] at hn
      rw [hname]
      simpa using hn
  · intro url region h1Res titleRes addrRes phoneRess emailRes links
      hoursRess descRess reqRess h
    simp [Network211.scrape_pantry_detail, h]
  · intro url region h1Res titleRes addrRes phoneRess emailRes links
      hoursRess descRess reqRess p h
    exact nw_extractName_ne (nw_scrape_some h).1
  · intro url ts nameRes contactRes phoneRes faxRes hoursRess reqRes links
    exact ⟨_, flask_scrape_eq url ts nameRes contactRes phoneRes faxRes
      hoursRess reqRes links, rfl⟩

/-- Witness for C5 as amended: concrete nameless pages fail on the two
guarded extractors and still yield a record on the flask one. -/
theorem claim_C5_amended_witness :
    FoodPantriesOrg.scrape_pantry_details "http://u" (some "  ") none none
      none none none [] = none ∧
    Network211.scrape_pantry_detail "http://u" "wisconsin" none none none
      [] none [] [] [] [] = none ∧
    (∃ r, FlaskBackend.scrape_pantry_details "http://u" "t" none none none
      none [] none [] = some r ∧ r.name = (none : Option String).map pyStrip) :=
  ⟨claim_C5_amended.1 "http://u" (some "  ") none none none none none []
     (by intro s hs; cases hs; decide),
   claim_C5_amended.2.2.1 "http://u" "wisconsin" none none none [] none []
     [] [] [] (by decide),
   claim_C5_amended.2.2.2.2 "http://u" "t" none none none none [] none []⟩

section LinkLemmas

lemma any_at_ne {s : String} (h : s.data.any (· == '@') = true) :
    s ≠ "" := by
  intro hs
  subst hs
  exact absurd h (by decide)

/-- The website component of the foodpantries.org link scan is exactly
the stripped href of the first link satisfying fpWebsiteHit, regardless
of the email accumulator. -/
lemma fp_scanLinks_snd (links : List Link) : ∀ e0 : Option String,
    (FoodPantriesOrg.scanLinks links e0).2 =
      (links.find? fpWebsiteHit).map (fun l => pyStrip l.href) := by
  induction links with
  | nil => intro e0; rfl
  | cons l rest ih =>
    intro e0
    by_cases h1 : containsSub (pyStrip l.href) "mailto:" = true
    · have hw : ¬ fpWebsiteHit l = true := by
        simp [fpWebsiteHit, fpExternalHit, fpMailtoHit, h1]
      rw [List.find?_cons_of_neg _ hw]
      simp only [FoodPantriesOrg.scanLinks, h1, if_true]
      exact ih _
    · rw [Bool.not_eq_true] at h1
      by_cases h2 : (startsWithStr (pyStrip l.href) "http" &&
          !containsSub (pyStrip l.href) "foodpantries.org") = true
      · have h2a : startsWithStr (pyStrip l.href) "http" = true ∧
            containsSub (pyStrip l.href) "foodpantries.org" = false := by
          simpa using h2
        by_cases h3 : (containsSub (pyLower (pyStrip l.text)) "website" ||
            containsSub (pyLower (pyStrip l.text)) "visit" ||
            containsSub (pyLower (pyStrip l.text)) "home" ||
            containsSub (pyLower (pyStrip l.text)) "more info") = true
        · have h3p : containsSub (pyLower (pyStrip l.text)) "website" = true ∨
              containsSub (pyLower (pyStrip l.text)) "visit" = true ∨
              containsSub (pyLower (pyStrip l.text)) "home" = true ∨
              containsSub (pyLower (pyStrip l.text)) "more info" = true := by
            have := h3
            simp only [Bool.or_eq_true] at this
            tauto
          have hw : fpWebsiteHit l = true := by
            simp only [fpWebsiteHit, fpExternalHit, fpMailtoHit, fpLinkText,
              h1, h2a.1, h2a.2, Bool.not_false, Bool.and_self, Bool.true_and,
              Bool.and_true, Bool.or_eq_true]
            tauto
          rw [List.find?_cons_of_pos _ hw]
          simp [FoodPantriesOrg.scanLinks, h1, h2, h3]
        · rw [Bool.not_eq_true] at h3
          by_cases h4 : containsSub
              (pyLower (match l.parentText with
                        | some t => pyStrip t
                        | none => "")) "website" = true
          · have hw : fpWebsiteHit l = true := by
              simp only [fpWebsiteHit, fpExternalHit, fpMailtoHit, fpLinkText,
                fpParentText, h1, h2a.1, h2a.2, Bool.not_false, Bool.and_self,
                Bool.true_and, Bool.and_true, Bool.or_eq_true]
              tauto
            rw [List.find?_cons_of_pos _ hw]
            simp [FoodPantriesOrg.scanLinks, h1, h2, h3, h4]
          · rw [Bool.not_eq_true] at h4
            have hw : ¬ fpWebsiteHit l = true := by
              simp [fpWebsiteHit, fpExternalHit, fpMailtoHit, fpLinkText,
                fpParentText, h1, h3, h4]
            rw [List.find?_cons_of_neg _ hw]
            simp only [FoodPantriesOrg.scanLinks, h1, h2, h3, h4,
              Bool.false_eq_true, if_false, if_true]
            exact ih _
      · rw [Bool.not_eq_true] at h2
        have hw : ¬ fpWebsiteHit l = true := by
          simp [fpWebsiteHit, fpExternalHit, fpMailtoHit, h1, h2]
        rw [List.find?_cons_of_neg _ hw]
        simp only [FoodPantriesOrg.scanLinks, h1, h2, Bool.false_eq_true,
          if_false]
        exact ih _

/-- A truthy email accumulator is never overwritten by the
foodpantries.org scan. -/
lemma fp_scanLinks_fst_acc (links : List Link) : ∀ e0 : Option String,
    pyTruthyO e0 = true → (FoodPantriesOrg.scanLinks links e0).1 = e0 := by
  induction links with
  | nil => intro e0 _; rfl
  | cons l rest ih =>
    intro e0 he
    by_cases h1 : containsSub (pyStrip l.href) "mailto:" = true
    · simp only [FoodPantriesOrg.scanLinks, h1, if_true, he, Bool.not_true,
        Bool.and_false, Bool.false_eq_true, if_false]
      exact ih _ he
    · rw [Bool.not_eq_true] at h1
      simp only [FoodPantriesOrg.scanLinks, h1, Bool.false_eq_true, if_false]
      split_ifs <;> first | rfl | exact ih _ he

/-- When the foodpantries.org scan starting from an empty email
accumulator reports an email, it is the address of the first link
satisfying fpEmailHit. -/
lemma fp_scanLinks_fst (links : List Link) : ∀ a : String,
    (FoodPantriesOrg.scanLinks links none).1 = some a →
    (links.find? fpEmailHit).map fpEmailAddr = some a := by
  induction links with
  | nil => intro a h; exact Option.noConfusion h
  | cons l rest ih =>
    intro a h
    by_cases h1 : containsSub (pyStrip l.href) "mailto:" = true
    · by_cases hA : (fpEmailAddr l).data.any (· == '@') = true
      · have hhit : fpEmailHit l = true := by
          simp [fpEmailHit, fpMailtoHit, h1, hA]
        rw [List.find?_cons_of_pos _ hhit]
        simp only [FoodPantriesOrg.scanLinks, h1, if_true, pyTruthyO,
          Bool.not_false, Bool.and_true] at h
        rw [show (pyStrip (removeAll (pyStrip l.href) "mailto:")).data.any
              (· == '@') = true from hA] at h
        rw [if_pos rfl] at h
        have hacc := fp_scanLinks_fst_acc rest
          (some (pyStrip (removeAll (pyStrip l.href) "mailto:")))
          (pyTruthyO_some (any_at_ne hA))
        rw [hacc] at h
        simpa [fpEmailAddr] using h
      · rw [Bool.not_eq_true] at hA
        have hhit : ¬ fpEmailHit l = true := by
          simp [fpEmailHit, fpMailtoHit, hA]
        rw [List.find?_cons_of_neg _ hhit]
        simp only [FoodPantriesOrg.scanLinks, h1, if_true, pyTruthyO,
          Bool.not_false, Bool.and_true] at h
        rw [show (pyStrip (removeAll (pyStrip l.href) "mailto:")).data.any
              (· == '@') = false from hA] at h
        rw [if_neg (by decide)] at h
        exact ih a h
    · rw [Bool.not_eq_true] at h1
      have hhit : ¬ fpEmailHit l = true := by
        simp [fpEmailHit, fpMailtoHit, h1]
      rw [List.find?_cons_of_neg _ hhit]
      simp only [FoodPantriesOrg.scanLinks, h1, Bool.false_eq_true,
        if_false] at h
      apply ih a
      by_cases h2 : (startsWithStr (pyStrip l.href) "http" &&
          !containsSub (pyStrip l.href) "foodpantries.org") = true
      · simp only [h2, if_true] at h
        split_ifs at h
        all_goals first
          | exact absurd h (by simp)
          | exact h
      · rw [Bool.not_eq_true] at h2
        simpa [h2] using h

/-- A truthy email accumulator is never overwritten by the flask
scan. -/
lemma flask_scanLinks_fst_acc (links : List Link) :
    ∀ (e0 w0 : Option String), pyTruthyO e0 = true →
    (FlaskBackend.scanLinks links e0 w0).1 = e0 := by
  induction links with
  | nil => intro e0 w0 _; rfl
  | cons l rest ih =>
    intro e0 w0 he
    by_cases h1 : containsSub l.href "mailto:" = true
    · simp only [FlaskBackend.scanLinks, h1, if_true, he, Bool.not_true,
        Bool.and_false, Bool.false_eq_true, if_false]
      exact ih _ _ he
    · rw [Bool.not_eq_true] at h1
      simp only [FlaskBackend.scanLinks, h1, Bool.false_eq_true, if_false]
      split_ifs <;> exact ih _ _ he

/-- When the flask scan starting from an empty email accumulator reports
an email, it is the address of the first link satisfying
flaskEmailHit (the website accumulator does not interfere). -/
lemma flask_scanLinks_fst (links : List Link) :
    ∀ (w0 : Option String) (a : String),
    (FlaskBackend.scanLinks links none w0).1 = some a →
    (links.find? flaskEmailHit).map flaskEmailAddr = some a := by
  induction links with
  | nil => intro w0 a h; exact Option.noConfusion h
  | cons l rest ih =>
    intro w0 a h
    by_cases h1 : containsSub l.href "mailto:" = true
    · by_cases hA : (flaskEmailAddr l).data.any (· == '@') = true
      · have hhit : flaskEmailHit l = true := by
          simp [flaskEmailHit, flaskMailtoHit, h1, hA]
        rw [List.find?_cons_of_pos _ hhit]
        simp only [FlaskBackend.scanLinks, h1, if_true, pyTruthyO,
          Bool.not_false, Bool.and_true] at h
        rw [show (pyStrip (removeAll l.href "mailto:")).data.any
              (· == '@') = true from hA] at h
        rw [if_pos rfl] at h
        have hacc := flask_scanLinks_fst_acc rest
          (some (pyStrip (removeAll l.href "mailto:"))) w0
          (pyTruthyO_some (any_at_ne hA))
        rw [hacc] at h
        simpa [flaskEmailAddr] using h
      · rw [Bool.not_eq_true] at hA
        have hhit : ¬ flaskEmailHit l = true := by
          simp [flaskEmailHit, flaskMailtoHit, hA]
        rw [List.find?_cons_of_neg _ hhit]
        simp only [FlaskBackend.scanLinks, h1, if_true, pyTruthyO,
          Bool.not_false, Bool.and_true] at h
        rw [show (pyStrip (removeAll l.href "mailto:")).data.any
              (· == '@') = false from hA] at h
        rw [if_neg (by decide)] at h
        exact ih _ a h
    · rw [Bool.not_eq_true] at h1
      have hhit : ¬ flaskEmailHit l = true := by
        simp [flaskEmailHit, flaskMailtoHit, h1]
      rw [List.find?_cons_of_neg _ hhit]
      simp only [FlaskBackend.scanLinks, h1, Bool.false_eq_true,
        if_false] at h
      by_cases h2 : (startsWithStr l.href "http" &&
          !containsSub l.href "foodpantries.org") = true
      · simp only [h2, if_true] at h
        exact ih _ a h
      · rw [Bool.not_eq_true] at h2
        exact ih _ a (by simpa [h2] using h)

/-- Behaviour of the flask website accumulator: starting from an absent
or truthy accumulator, the final website is either the incoming
accumulator or the href of some external link; it is defined and no
longer than every external link's href; and it never grows past the
incoming accumulator. -/
lemma flask_scanLinks_snd (links : List Link) :
    ∀ (e w : Option String), (w = none ∨ pyTruthyO w = true) →
    ((FlaskBackend.scanLinks links e w).2 = w ∨
      ∃ l, l ∈ links ∧ flaskExternalHit l = true ∧
        (FlaskBackend.scanLinks links e w).2 = some l.href) ∧
    (∀ l, l ∈ links → flaskExternalHit l = true →
      ∃ s, (FlaskBackend.scanLinks links e w).2 = some s ∧
        s.length ≤ l.href.length) ∧
    (∀ s, w = some s →
      ∃ t, (FlaskBackend.scanLinks links e w).2 = some t ∧
        t.length ≤ s.length) := by
  induction links with
  | nil =>
    intro e w _
    refine ⟨Or.inl rfl, by simp, ?_⟩
    intro s hs
    exact ⟨s, by rw [hs]; rfl, le_refl _⟩
  | cons l rest ih =>
    intro e w hw
    by_cases h1 : containsSub l.href "mailto:" = true
    · have hl : flaskExternalHit l = false := by
        simp [flaskExternalHit, flaskMailtoHit, h1]
      have hstep : FlaskBackend.scanLinks (l :: rest) e w =
          FlaskBackend.scanLinks rest
            (if (pyStrip (removeAll l.href "mailto:")).data.any (· == '@') &&
                !pyTruthyO e then
              some (pyStrip (removeAll l.href "mailto:"))
             else e) w := by
        simp [FlaskBackend.scanLinks, h1]
      obtain ⟨ha, hb, hc⟩ := ih _ w hw
      rw [hstep]
      refine ⟨?_, ?_, hc⟩
      · rcases ha with ha | ⟨l', hl', hhit, heq⟩
        · exact Or.inl ha
        · exact Or.inr ⟨l', List.mem_cons_of_mem _ hl', hhit, heq⟩
      · intro l' hl' hhit
        rcases List.mem_cons.mp hl' with rfl | hl'
        · rw [hhit] at hl; exact Bool.noConfusion hl
        · exact hb l' hl' hhit
    · rw [Bool.not_eq_true] at h1
      by_cases h2 : (startsWithStr l.href "http" &&
          !containsSub l.href "foodpantries.org") = true
      · have hhitl : flaskExternalHit l = true := by
          simp only [flaskExternalHit, flaskMailtoHit, h1, Bool.not_false,
            Bool.true_and]
          exact h2
        have hne : l.href ≠ "" := by
          intro h0
          have h2a : startsWithStr l.href "http" = true :=
            (Bool.and_eq_true_iff.mp h2).1
          rw [h0] at h2a
          exact absurd h2a (by decide)
        have hstep : FlaskBackend.scanLinks (l :: rest) e w =
            FlaskBackend.scanLinks rest e
              (if !pyTruthyO w || l.href.length < (w.getD "").length then
                some l.href
               else w) := by
          simp [FlaskBackend.scanLinks, h1, h2]
        set w' := if !pyTruthyO w || l.href.length < (w.getD "").length then
            some l.href
          else w with hwdef
        have hw' : w' = none ∨ pyTruthyO w' = true := by
          rw [hwdef]
          split_ifs with hcond
          · exact Or.inr (pyTruthyO_some hne)
          · exact hw
        have hw'some : ∃ u, w' = some u ∧ u.length ≤ l.href.length := by
          rw [hwdef]
          split_ifs with hcond
          · exact ⟨l.href, rfl, le_refl _⟩
          · simp only [Bool.or_eq_true, Bool.not_eq_eq_eq_not, Bool.not_true,
              not_or, Bool.not_eq_true, decide_eq_true_eq, not_lt] at hcond
            rcases hw with hw0 | hwt
            · rw [hw0] at hcond
              exact absurd hcond.1 (by simp [pyTruthyO])
            · rcases w with _ | u
              · exact absurd hwt (by simp [pyTruthyO])
              · refine ⟨u, rfl, ?_⟩
                have := hcond.2
                simpa using this
        have hw'mono : ∀ s, w = some s →
            ∃ u, w' = some u ∧ u.length ≤ s.length := by
          intro s hs
          rw [hwdef]
          split_ifs with hcond
          · refine ⟨l.href, rfl, ?_⟩
            simp only [Bool.or_eq_true, decide_eq_true_eq] at hcond
            rcases hcond with hcond | hcond
            · rw [hs] at hcond
              rcases hw with hw0 | hwt
              · exact absurd hw0 (by rw [hs]; simp)
              · rw [hs] at hwt
                rw [Bool.not_eq_true'] at hcond
                rw [hwt] at hcond
                exact Bool.noConfusion hcond
            · rw [hs] at hcond
              simp only [Option.getD_some] at hcond
              exact le_of_lt hcond
          · exact ⟨s, hs, le_refl _⟩
        obtain ⟨ha, hb, hc⟩ := ih e w' hw'
        rw [hstep]
        refine ⟨?_, ?_, ?_⟩
        · rcases ha with ha | ⟨l', hl', hhit', heq⟩
          · by_cases hcond : (!pyTruthyO w ||
                l.href.length < (w.getD "").length) = true
            · have hw'eq : w' = some l.href := by
                rw [hwdef, if_pos hcond]
              exact Or.inr ⟨l, List.mem_cons_self l rest, hhitl,
                ha.trans hw'eq⟩
            · rw [Bool.not_eq_true] at hcond
              have hw'eq : w' = w := by
                rw [hwdef, if_neg (by simp [hcond])]
              exact Or.inl (ha.trans hw'eq)
          · exact Or.inr ⟨l', List.mem_cons_of_mem _ hl', hhit', heq⟩
        · intro l' hl' hhit'
          rcases List.mem_cons.mp hl' with rfl | hl'
          · rcases hw'some with ⟨u, hu, hule⟩
            obtain ⟨t, ht, htle⟩ := hc u hu
            exact ⟨t, ht, le_trans htle hule⟩
          · exact hb l' hl' hhit'
        · intro s hs
          obtain ⟨u, hu, hule⟩ := hw'mono s hs
          obtain ⟨t, ht, htle⟩ := hc u hu
          exact ⟨t, ht, le_trans htle hule⟩
      · rw [Bool.not_eq_true] at h2
        have hl : flaskExternalHit l = false := by
          simp only [flaskExternalHit, flaskMailtoHit, h1, Bool.not_false,
            Bool.true_and]
          exact h2
        have hstep : FlaskBackend.scanLinks (l :: rest) e w =
            FlaskBackend.scanLinks rest e w := by
          simp [FlaskBackend.scanLinks, h1, h2]
        obtain ⟨ha, hb, hc⟩ := ih e w hw
        rw [hstep]
        refine ⟨?_, ?_, hc⟩
        · rcases ha with ha | ⟨l', hl', hhit, heq⟩
          · exact Or.inl ha
          · exact Or.inr ⟨l', List.mem_cons_of_mem _ hl', hhit, heq⟩
        · intro l' hl' hhit
          rcases List.mem_cons.mp hl' with rfl | hl'
          · rw [hhit] at hl; exact Bool.noConfusion hl
          · exact hb l' hl' hhit

end LinkLemmas

/-- Counterexample to C6: the flask backend extractor keeps an external
link as the website although neither its anchor text nor its parent text
contains any website/visit/home indicator. -/
theorem claim_C6_counterexample :
    (FlaskBackend.scrape_pantry_details "u" "t" none none none none []
      none [⟨"http://a.com", "click here", some "row"⟩]).map
      (fun r => r.website) = some (some "http://a.com") ∧
    (containsSub (pyLower (pyStrip "click here")) "website" ||
     containsSub (pyLower (pyStrip "click here")) "visit" ||
     containsSub (pyLower (pyStrip "click here")) "home" ||
     containsSub (pyLower (pyStrip "click here")) "more info" ||
     containsSub (pyLower (pyStrip "row")) "website") = false := by
  decide

/-- C6 as amended: for the foodpantries.org extractor the claim holds as
stated - the website is exactly the (stripped) href of the first scanned
external link with a website/visit/home indicator in its anchor text or
"website" in its parent text (absent when no link qualifies), the email,
when present, is the address of the first mailto link, and extraction
still succeeds without qualifying links.  The flask backend extractor's
email is likewise the first mailto address, but its website, when
present, is a shortest external href among the scanned links, with no
indicator requirement (claim_C6_counterexample). -/
theorem claim_C6_amended :
    (∀ links : List Link,
      (FoodPantriesOrg.scanLinks links none).2 =
        (links.find? fpWebsiteHit).map (fun l => pyStrip l.href)) ∧
    (∀ (links : List Link) (a : String),
      (FoodPantriesOrg.scanLinks links none).1 = some a →
      (links.find? fpEmailHit).map fpEmailAddr = some a) ∧
    (∀ (url raw : String)
       (contactRes : Option (String × String × String × String))
       (phoneRes faxRes hoursRes reqRes : Option String) (links : List Link),
      pyStrip raw ≠ "" →
      (FoodPantriesOrg.scrape_pantry_details url (some raw) contactRes
        phoneRes faxRes hoursRes reqRes links).isSome = true) ∧
    (∀ (url raw : String)
       (contactRes : Option (String × String × String × String))
       (phoneRes faxRes hoursRes reqRes : Option String) (links : List Link)
       (p : Pantry),
      FoodPantriesOrg.scrape_pantry_details url (some raw) contactRes
        phoneRes faxRes hoursRes reqRes links = some p →
      p.website = (links.find? fpWebsiteHit).map (fun l => pyStrip l.href) ∧
      ((links.find? fpEmailHit) = none → p.email = none)) ∧
    (∀ (links : List Link) (a : String),
      (FlaskBackend.scanLinks links none none).1 = some a →
      (links.find? flaskEmailHit).map flaskEmailAddr = some a) ∧
    (∀ (links : List Link) (h : String),
      (FlaskBackend.scanLinks links none none).2 = some h →
      (∃ l, l ∈ links ∧ flaskExternalHit l = true ∧ l.href = h) ∧
      ∀ l, l ∈ links → flaskExternalHit l = true →
        h.length ≤ l.href.length) := by
  refine ⟨fun links => fp_scanLinks_snd links none, fp_scanLinks_fst,
    ?_, ?_, ?_, ?_⟩
  · intro url raw contactRes phoneRes faxRes hoursRes reqRes links h
    simp [FoodPantriesOrg.scrape_pantry_details, pyTruthyO, h]
  · intro url raw contactRes phoneRes faxRes hoursRes reqRes links p h
    obtain ⟨-, -, -, -, hemail, hweb⟩ := fp_scrape_some h
    refine ⟨?_, ?_⟩
    · rw [hweb, fp_scanLinks_snd]
    · intro hnone
      rw [hemail]
      cases he : (FoodPantriesOrg.scanLinks links none).1 with
      | none => rfl
      | some a =>
        have := fp_scanLinks_fst links a he
        rw [hnone] at this
        exact absurd this (by simp)
  · intro links a h
    exact flask_scanLinks_fst links none a h
  · intro links h hsome
    obtain ⟨ha, hb, -⟩ :=
      flask_scanLinks_snd links none none (Or.inl rfl)
    constructor
    · rcases ha with ha | ⟨l, hl, hhit, heq⟩
      · rw [hsome] at ha
        exact absurd ha (by simp)
      · rw [hsome] at heq
        exact ⟨l, hl, hhit, (Option.some.inj heq).symm⟩
    · intro l hl hhit
      obtain ⟨s, hs, hsle⟩ := hb l hl hhit
      rw [hsome] at hs
      rw [← Option.some.inj hs] at hsle
      exact hsle

/-- Witness for C6 as amended: each conjunct applied at concrete link
lists (a qualifying external link, a mailto link, and two external links
of different lengths for the flask shortest-href rule). -/
theorem claim_C6_amended_witness :
    (FoodPantriesOrg.scanLinks [⟨"http://a.com", "Visit Us", none⟩] none).2 =
      (([⟨"http://a.com", "Visit Us", none⟩] : List Link).find?
        fpWebsiteHit).map (fun l => pyStrip l.href) ∧
    (([⟨"mailto:bob@x.org", "write", none⟩] : List Link).find?
      fpEmailHit).map fpEmailAddr = some "bob@x.org" ∧
    (FoodPantriesOrg.scrape_pantry_details "u" (some "Community Pantry")
      none none none none none []).isSome = true ∧
    (([⟨"mailto:bob@x.org", "write", none⟩] : List Link).find?
      flaskEmailHit).map flaskEmailAddr = some "bob@x.org" ∧
    ((∃ l, l ∈ ([⟨"http://a.com", "x", none⟩, ⟨"http://b.io", "y", none⟩] :
        List Link) ∧ flaskExternalHit l = true ∧ l.href = "http://b.io") ∧
      ∀ l, l ∈ ([⟨"http://a.com", "x", none⟩, ⟨"http://b.io", "y", none⟩] :
        List Link) → flaskExternalHit l = true →
        ("http://b.io" : String).length ≤ l.href.length) :=
  ⟨claim_C6_amended.1 [⟨"http://a.com", "Visit Us", none⟩],
   claim_C6_amended.2.1 [⟨"mailto:bob@x.org", "write", none⟩] "bob@x.org"
     (by decide),
   claim_C6_amended.2.2.1 "u" "Community Pantry" none none none none none
     [] (by decide),
   claim_C6_amended.2.2.2.2.1 [⟨"mailto:bob@x.org", "write", none⟩]
     "bob@x.org" (by decide),
   claim_C6_amended.2.2.2.2.2
     [⟨"http://a.com", "x", none⟩, ⟨"http://b.io", "y", none⟩]
     "http://b.io" (by decide)⟩

section CascadeLemmas

lemma cascade_lt {cap : Nat} : ∀ {rs : List (Option String)} {s : String},
    cascade cap rs = some s → s.length < cap := by
  intro rs
  induction rs with
  | nil => intro s h; exact Option.noConfusion h
  | cons o rest ih =>
    intro s h
    cases o with
    | none => exact ih h
    | some t =>
      simp only [cascade] at h
      split_ifs at h with hlen
      · rw [← Option.some.inj h]
        exact hlen
      · exact ih h

end CascadeLemmas

/-- C9: in every extraction cascade, a capture whose stripped text
reaches the cap (500 for hours/requirements, 1000 for description) is
discarded and the cascade proceeds to the next rule; the first accepted
capture wins and later rules are not attempted; consequently every
hours/requirements/description value in a record extracted by any of the
three scrapers is strictly below its cap. -/
theorem claim_C9 :
    (∀ (cap : Nat) (rs : List (Option String)) (s : String),
      cascade cap rs = some s → s.length < cap) ∧
    (∀ (cap : Nat) (s : String) (rest : List (Option String)),
      (pyStrip s).length < cap →
      cascade cap (some s :: rest) = some (pyStrip s)) ∧
    (∀ (cap : Nat) (s : String) (rest : List (Option String)),
      ¬ (pyStrip s).length < cap →
      cascade cap (some s :: rest) = cascade cap rest) ∧
    (∀ (url : String) (nameRes : Option String)
       (contactRes : Option (String × String × String × String))
       (phoneRes faxRes hoursRes reqRes : Option String) (links : List Link)
       (p : Pantry),
      FoodPantriesOrg.scrape_pantry_details url nameRes contactRes phoneRes
        faxRes hoursRes reqRes links = some p →
      (∀ h, p.hours = some h → h.length < 500) ∧
      (∀ r, p.requirements = some r → r.length < 500)) ∧
    (∀ (url region : String) (h1Res titleRes : Option String)
       (addrRes : Option (String × String × String × String))
       (phoneRess : List (Option String)) (emailRes : Option String)
       (links : List Link) (hoursRess descRess reqRess : List (Option String))
       (p : Pantry),
      Network211.scrape_pantry_detail url region h1Res titleRes addrRes
        phoneRess emailRes links hoursRess descRess reqRess = some p →
      (∀ h, p.hours = some h → h.length < 500) ∧
      (∀ d, p.description = some d → d.length < 1000) ∧
      (∀ r, p.requirements = some r → r.length < 500)) ∧
    (∀ (url ts : String) (nameRes : Option String)
       (contactRes : Option (String × String × String × String))
       (phoneRes faxRes : Option String) (hoursRess : List (Option String))
       (reqRes : Option String) (links : List Link) (r : FlaskBackend.FlaskRecord),
      FlaskBackend.scrape_pantry_details url ts nameRes contactRes phoneRes
        faxRes hoursRess reqRes links = some r →
      (∀ h, r.hours = some h → h.length < 500) ∧
      (∀ q, r.requirements = some q → q.length < 500)) := by
  refine ⟨fun cap rs s => cascade_lt, ?_, ?_, ?_, ?_, ?_⟩
  · intro cap s rest hlen
    simp [cascade, hlen]
  · intro cap s rest hlen
    simp [cascade, hlen]
  · intro url nameRes contactRes phoneRes faxRes hoursRes reqRes links p hp
    obtain ⟨-, -, hhours, hreq, -, -⟩ := fp_scrape_some hp
    constructor
    · intro h hh
      rw [hhours] at hh
      exact cascade_lt hh
    · intro r hr
      rw [hreq] at hr
      exact cascade_lt hr
  · intro url region h1Res titleRes addrRes phoneRess emailRes links
      hoursRess descRess reqRess p hp
    obtain ⟨-, hhours, hdesc, hreq⟩ := nw_scrape_some hp
    refine ⟨?_, ?_, ?_⟩
    · intro h hh
      rw [hhours] at hh
      exact cascade_lt hh
    · intro d hd
      rw [hdesc] at hd
      exact cascade_lt hd
    · intro r hr
      rw [hreq] at hr
      exact cascade_lt hr
  · intro url ts nameRes contactRes phoneRes faxRes hoursRess reqRes links
      r hr
    rw [flask_scrape_eq] at hr
    have hre := Option.some.inj hr
    constructor
    · intro h hh
      rw [← hre] at hh
      exact cascade_lt hh
    · intro q hq
      rw [← hre] at hq
      exact cascade_lt hq

/-- Witness for C9: a concrete over-cap capture is skipped in favour of
the next rule, an accepted capture wins immediately, and concrete
extractions on each scraper respect the caps. -/
theorem claim_C9_witness :
    cascade 3 [some "abcd", some "ab", some "x"] = some "ab" ∧
    cascade 3 [some "ab", some "x"] = some "ab" ∧
    (∀ h,
      Pantry.hours
        { name := "P", hours := some "9-5", source_url := some "u",
          source_site := some "foodpantries.org" } = some h →
      h.length < 500) := by
  have h1 := claim_C9.2.2.1 3 "abcd" [some "ab", some "x"] (by decide)
  have h2 := claim_C9.2.1 3 "ab" [some "x"] (by decide)
  have h3 := claim_C9.2.2.2.1 "u" (some "P") none none none (some "9-5")
    none []
    { name := "P", hours := some "9-5", source_url := some "u",
      source_site := some "foodpantries.org" }
    (by decide)
  refine ⟨?_, ?_, h3.1⟩
  · rw [h1]
    have h2b := claim_C9.2.1 3 "ab" [some "x"] (by decide)
    rw [h2b]
    decide
  · rw [h2]
    decide

section RunLoopLemmas

variable {α β : Type}

lemma runLoopAux_ge (q : Nat → Bool) (details : α → Option β) :
    ∀ (urls : List α) (i : Nat) (acc : List β),
    i ≤ (FlaskBackend.runLoopAux q details urls i acc).1 := by
  intro urls
  induction urls with
  | nil => intro i acc; exact le_refl i
  | cons u rest ih =>
    intro i acc
    simp only [FlaskBackend.runLoopAux]
    split_ifs
    · exact le_refl i
    · exact le_trans (Nat.le_succ i) (ih (i + 1) _)

lemma runLoopAux_le (q : Nat → Bool) (details : α → Option β) {k : Nat}
    (hk : q k = true) :
    ∀ (urls : List α) (i : Nat) (acc : List β), i ≤ k →
    (FlaskBackend.runLoopAux q details urls i acc).1 ≤ k := by
  intro urls
  induction urls with
  | nil => intro i acc hik; exact hik
  | cons u rest ih =>
    intro i acc hik
    simp only [FlaskBackend.runLoopAux]
    split_ifs with hqi
    · exact hik
    · refine ih (i + 1) _ ?_
      rcases Nat.lt_or_ge i k with hlt | hge
      · omega
      · have : i = k := le_antisymm hik hge
        rw [this] at hqi
        exact absurd hk hqi

lemma runLoopAux_data (q : Nat → Bool) (details : α → Option β) :
    ∀ (urls : List α) (i : Nat) (acc : List β),
    (FlaskBackend.runLoopAux q details urls i acc).2.1 =
      acc ++ (urls.take
        ((FlaskBackend.runLoopAux q details urls i acc).1 - i)).filterMap
        details := by
  intro urls
  induction urls with
  | nil => intro i acc; simp [FlaskBackend.runLoopAux]
  | cons u rest ih =>
    intro i acc
    simp only [FlaskBackend.runLoopAux]
    split_ifs with hqi
    · simp
    · have hge := runLoopAux_ge q details rest (i + 1)
        (acc ++ (details u).toList)
      have hsub :
          (FlaskBackend.runLoopAux q details rest (i + 1)
            (acc ++ (details u).toList)).1 - i =
          ((FlaskBackend.runLoopAux q details rest (i + 1)
            (acc ++ (details u).toList)).1 - (i + 1)) + 1 := by
        omega
      rw [hsub, List.take_succ_cons, ih (i + 1) (acc ++ (details u).toList)]
      cases hd : details u with
      | none => simp [List.filterMap_cons, hd]
      | some b => simp [List.filterMap_cons, hd]

lemma runLoopAux_not_stopped (q : Nat → Bool) (details : α → Option β) :
    ∀ (urls : List α) (i : Nat) (acc : List β),
    (FlaskBackend.runLoopAux q details urls i acc).2.2 = false →
    (FlaskBackend.runLoopAux q details urls i acc).1 = i + urls.length := by
  intro urls
  induction urls with
  | nil => intro i acc _; simp [FlaskBackend.runLoopAux]
  | cons u rest ih =>
    intro i acc h
    simp only [FlaskBackend.runLoopAux] at h ⊢
    split_ifs with hqi
    · rw [if_pos hqi] at h
      exact absurd h (by simp)
    · rw [if_neg hqi] at h
      rw [ih (i + 1) _ h]
      simp
      omega

end RunLoopLemmas

/-- C7: requestStop sets the cancellation event; the background run
checks the event at the checkpoint before each detail page; for a run of
10 pages whose event is observable set by the checkpoint before the 5th
page (index 4) - i.e. requestStop arrived after item 3 completed and no
later than during item 4 - the run reaches current ≤ 4, never processes
pages 5-10 (its data is exactly the per-item results of the first
`current` pages), reaches status "Stopped by user" with the run flag
cleared; in general no page at or beyond an index whose checkpoint sees
the event set is ever processed. -/
theorem claim_C7 {α β : Type} (urls : List α) (details : α → Option β)
    (q : Nat → Bool)
    (hmono : ∀ i j, i ≤ j → q i = true → q j = true)
    (hq4 : q 4 = true) (hlen : urls.length = 10) :
    (∀ st : FlaskBackend.ScrapingState,
      (FlaskBackend.stop_scrape st).stop_event = true) ∧
    (FlaskBackend.scrape_in_background q details urls none).current ≤ 4 ∧
    (FlaskBackend.scrape_in_background q details urls none).stopped = true ∧
    (FlaskBackend.scrape_in_background q details urls none).status =
      "Stopped by user" ∧
    (FlaskBackend.scrape_in_background q details urls none).is_scraping =
      false ∧
    (FlaskBackend.scrape_in_background q details urls none).data =
      (urls.take
        ((FlaskBackend.scrape_in_background q details urls none).current)
        ).filterMap details ∧
    (∀ k, q k = true →
      (FlaskBackend.scrape_in_background q details urls none).current ≤ k) := by
  rcases urls with _ | ⟨u, us⟩
  · simp at hlen
  · have hlen' : us.length = 9 := by simpa using hlen
    have hq10 : q (u :: us).length = true := by
      rw [List.length_cons, hlen']
      exact hmono 4 10 (by omega) hq4
    have hcur : (FlaskBackend.runLoopAux q details (u :: us) 0
        ([] : List β)).1 ≤ 4 :=
      runLoopAux_le q details hq4 _ 0 [] (by omega)
    have hstop : (FlaskBackend.runLoopAux q details (u :: us) 0
        ([] : List β)).2.2 = true := by
      by_contra hc
      rw [Bool.not_eq_true] at hc
      have h10 := runLoopAux_not_stopped q details (u :: us) 0 [] hc
      rw [List.length_cons, hlen'] at h10
      omega
    have hdata := runLoopAux_data q details (u :: us) 0 ([] : List β)
    simp only [FlaskBackend.scrape_in_background, List.isEmpty_cons,
      Bool.false_eq_true, if_false, hq10, Bool.not_true, hstop, if_true]
    refine ⟨fun st => rfl, hcur, trivial, trivial, trivial, ?_, ?_⟩
    · simpa using hdata
    · intro k hk
      exact runLoopAux_le q details hk _ 0 [] (Nat.zero_le k)

/-- Witness for C7: a concrete 10-page run whose stop event becomes
observable at the checkpoint before page index 3. -/
theorem claim_C7_witness :
    (FlaskBackend.scrape_in_background (fun i => decide (3 ≤ i))
      (fun s => some s)
      ["a", "b", "c", "d", "e", "f", "g", "h", "i", "j"] none).current ≤ 4 ∧
    (FlaskBackend.scrape_in_background (fun i => decide (3 ≤ i))
      (fun s => some s)
      ["a", "b", "c", "d", "e", "f", "g", "h", "i", "j"] none).stopped =
      true ∧
    (FlaskBackend.scrape_in_background (fun i => decide (3 ≤ i))
      (fun s => some s)
      ["a", "b", "c", "d", "e", "f", "g", "h", "i", "j"] none).status =
      "Stopped by user" ∧
    (FlaskBackend.scrape_in_background (fun i => decide (3 ≤ i))
      (fun s => some s)
      ["a", "b", "c", "d", "e", "f", "g", "h", "i", "j"] none).is_scraping =
      false := by
  have h := claim_C7 ["a", "b", "c", "d", "e", "f", "g", "h", "i", "j"]
    (fun s => some s) (fun i => decide (3 ≤ i))
    (by
      intro i j hij hi
      simp only [decide_eq_true_eq] at hi ⊢
      omega)
    (by decide) (by decide)
  exact ⟨h.2.1, h.2.2.1, h.2.2.2.1, h.2.2.2.2.1⟩

/-- C8: while a run is in progress, a start request is rejected as a
conflict with the entire job state (counters, status text, dataset,
event) returned untouched; while idle, a start request carrying a state
resets current and total to zero, clears the dataset, sets the status
text and marks the run started. -/
theorem claim_C8 :
    (∀ (st : FlaskBackend.ScrapingState) (body : FlaskBackend.StartRequest),
      st.is_scraping = true →
      FlaskBackend.start_scrape st body =
        (st, FlaskBackend.StartResult.conflict)) ∧
    (∀ (st : FlaskBackend.ScrapingState) (body : FlaskBackend.StartRequest)
       (s : String),
      st.is_scraping = false → body.state = some s → s ≠ "" →
      FlaskBackend.start_scrape st body =
        ({ st with is_scraping := true, current := 0, total := 0,
                   status := "Starting...", data := [] },
         FlaskBackend.StartResult.started)) := by
  constructor
  · intro st body h
    simp [FlaskBackend.start_scrape, h]
  · intro st body s h hs hne
    simp [FlaskBackend.start_scrape, h, hs, pyTruthyO, hne]

/-- Witness for C8: a concrete running state rejects a start unchanged;
a concrete idle state is reset and started. -/
theorem claim_C8_witness :
    FlaskBackend.start_scrape
      ⟨true, 2, 5, "Scraping pantry 2 of 5...", [], false⟩
      ⟨some "Wisconsin", none, true⟩ =
      (⟨true, 2, 5, "Scraping pantry 2 of 5...", [], false⟩,
       FlaskBackend.StartResult.conflict) ∧
    FlaskBackend.start_scrape ⟨false, 7, 9, "done", [], true⟩
      ⟨some "Wisconsin", none, true⟩ =
      (⟨true, 0, 0, "Starting...", [], true⟩,
       FlaskBackend.StartResult.started) :=
  ⟨claim_C8.1 ⟨true, 2, 5, "Scraping pantry 2 of 5...", [], false⟩
     ⟨some "Wisconsin", none, true⟩ rfl,
   claim_C8.2 ⟨false, 7, 9, "done", [], true⟩
     ⟨some "Wisconsin", none, true⟩ "Wisconsin" rfl rfl (by decide)⟩
